import Mathlib

/-!
Verification of the event-dispatch and command-routing core of the
Dis-Snek / naff client library (`src/naff/client/client.py` and
`src/dis_snek/models/listener.py`).

Python strings are embedded as `List Char`; Python dicts (which preserve
insertion order) as association lists; Python functions that mutate the
client in place are embedded as state-passing Lean functions.  A raised
exception is embedded as an error value carrying the state at the moment
of the raise, since in Python the mutations made before a raise persist.
-/

namespace DisSnek

/-! ## Python string primitives (on `List Char`) -/

/-- Python `str.lstrip("_")`: drop every leading underscore. -/
def lstripUnderscore (s : List Char) : List Char :=
  s.dropWhile (fun c => c = '_')

/-- Python `str.removeprefix(p)`: drop `p` from the front when `s` starts
with `p` (case-sensitive, at most once), otherwise return `s` unchanged. -/
def removePre (s p : List Char) : List Char :=
  if p.isPrefixOf s then s.drop p.length else s

/-- Python `str.removesuffix(p)`: drop `p` from the end when `s` ends
with `p`, otherwise return `s` unchanged. -/
def removeSuf (s p : List Char) : List Char :=
  if p.isSuffixOf s then s.take (s.length - p.length) else s

/-- Python `str.startswith(p)`. -/
def startsWithPy (s p : List Char) : Bool :=
  p.isPrefixOf s

/-- Python whitespace characters relevant to `str.strip()` / `str.split()`. -/
def isPySpace (c : Char) : Bool :=
  c = ' ' || c = '\t' || c = '\n' || c = '\r' || c = '\x0b' || c = '\x0c'

/-- Python `str.strip()`: remove whitespace from both ends. -/
def stripPy (s : List Char) : List Char :=
  ((s.dropWhile isPySpace).reverse.dropWhile isPySpace).reverse

/-- Modelled from the spec: `get_first_word` (from
`naff.client.utils.input_utils`, not under `src/`) — "repeatedly take the
next whitespace-delimited word"; returns the first whitespace-delimited
word of the text, or nothing when the text holds no word. -/
def getFirstWord (s : List Char) : Option (List Char) :=
  let w := (s.dropWhile isPySpace).takeWhile (fun c => !isPySpace c)
  if w.isEmpty then none else some w

/-! ## Event-name normalization (C6)

`src/dis_snek/models/listener.py`, `Listener.create` (lines 15-29): the
wrapper resolves the name (given name, or the coroutine's `__name__` when
the given name is MISSING), then applies `lstrip("_")` and
`removeprefix("on_")`. -/

/-- The event name stored by `Listener.create` in
`src/dis_snek/models/listener.py`:  `name.lstrip("_")` followed by
`name.removeprefix("on_")`. -/
def listenerCreateName (event_name : Option (List Char)) (coroName : List Char) : List Char :=
  let name := match event_name with
    | none => coroName
    | some n => n
  let name := lstripUnderscore name
  let name := removePre name ("on_".data)
  name

/-- The event name stored by `Client.add_event_processor` in
`src/naff/client/client.py` (lines 1122-1143): the same
`lstrip("_")` / `removeprefix("on_")` pipeline. -/
def processorEventName (event_name : Option (List Char)) (coroName : List Char) : List Char :=
  let name := match event_name with
    | none => coroName
    | some n => n
  let name := lstripUnderscore name
  let name := removePre name ("on_".data)
  name

/-! ## Listener registry (C3, C10)

`src/naff/client/client.py`, `Client.add_listener` (lines 1145-1175).
The registry `self.listeners` maps an event name to the ordered list of
listeners; it is embedded as a total function with default `[]` (the
source initializes a missing key to `[]` before appending). -/

/-- A registered listener, with the fields `Client.add_listener` reads.
`uid` distinguishes physically distinct listener objects. -/
structure Listener where
  event : List Char
  is_default_listener : Bool
  disable_default_listeners : Bool
  uid : Nat
deriving DecidableEq

/-- The listener registry `self.listeners`. -/
def ListenerReg : Type := List Char → List Listener

/-- `Client.add_listener` (lines 1145-1175).  The intent check only logs a
warning and changes no state, so it does not appear.  The listener is
appended to its event's list; then, when the list holds both a default
listener and a listener that disables defaults, every default listener is
filtered out. -/
def addListener (self : ListenerReg) (listener : Listener) : ListenerReg :=
  let ls := self listener.event ++ [listener]
  let default_listeners := ls.map (fun c_listener => c_listener.is_default_listener)
  let removes_defaults := ls.map (fun c_listener => c_listener.disable_default_listeners)
  let ls := if default_listeners.any id && removes_defaults.any id then
      ls.filter (fun c_listener => !c_listener.is_default_listener)
    else ls
  fun n => if n = listener.event then ls else self n

/-- The invariant of C10 for one event's list: when some listener disables
default listeners, the list holds no default listener. -/
def noDefaultsIfDisabler (ls : List Listener) : Prop :=
  (∃ c ∈ ls, c.disable_default_listeners = true) →
    ∀ c ∈ ls, c.is_default_listener = false

/-! ## Association lists (Python dicts)

Python dicts preserve insertion order; assignment to an existing key keeps
its position, assignment to a fresh key appends. -/

section AListOps

variable {K V : Type} [DecidableEq K]

/-- `m.get(k)` / `m[k]` lookup. -/
def lookupA : List (K × V) → K → Option V
  | [], _ => none
  | (k, v) :: rest, k' => if k' = k then some v else lookupA rest k'

/-- `k in m`. -/
def memA (m : List (K × V)) (k : K) : Bool :=
  (lookupA m k).isSome

/-- `m[k] = v`: replace in place when the key exists, else append. -/
def insertA : List (K × V) → K → V → List (K × V)
  | [], k, v => [(k, v)]
  | (k0, v0) :: rest, k, v =>
    if k = k0 then (k0, v) :: rest else (k0, v0) :: insertA rest k v

end AListOps

/-! ## Waiter registry (C2)

`src/naff/client/client.py`, `Client.dispatch` (lines 975-984): the list
of pending waits for the dispatched event's name is scanned with
`enumerate`; every wait whose call returns true gets its index collected;
then the collected indices are popped in `sorted(..., reverse=True)`
order.  The `Wait` class itself (`naff.models.Wait`) is not under `src/`. -/

/-- Modelled from the spec: a `Wait` entry of `self.waits`
(`naff.models.Wait`, not under `src/`) — "{event_name, predicate,
completion-slot}"; `uid` identifies its completion future. -/
structure Wait (Ev : Type) where
  event : List Char
  check : Ev → Bool
  uid : Nat

/-- Modelled from the spec: calling a `Wait` on an event — "synchronously
evaluate its predicate against the event.  If true, resolve its completion
slot with the event" — returns whether the predicate held. -/
def waitCall {Ev : Type} (w : Wait Ev) (e : Ev) : Bool :=
  w.check e

/-- The `for i, _wait in enumerate(_waits)` loop of `Client.dispatch`:
the indices (counted from `i0`) of the waits whose call returned true. -/
def collectIndices {Ev : Type} (e : Ev) : List (Wait Ev) → Nat → List Nat
  | [], _ => []
  | w :: rest, i =>
    (if waitCall w e then [i] else []) ++ collectIndices e rest (i + 1)

/-- Python `sorted(xs, reverse=True)` on naturals (insertion sort,
descending). -/
def insertDescend (a : Nat) : List Nat → List Nat
  | [] => [a]
  | b :: rest => if b ≤ a then a :: b :: rest else b :: insertDescend a rest

/-- Python `sorted(xs, reverse=True)` on naturals. -/
def sortDescend : List Nat → List Nat
  | [] => []
  | a :: rest => insertDescend a (sortDescend rest)

/-- Python `list.pop(i)` (for an in-range index): the list without its
`i`-th element. -/
def popAt {α : Type} (l : List α) (i : Nat) : List α :=
  l.take i ++ l.drop (i + 1)

/-- The waits left registered after the waiter part of `Client.dispatch`
(lines 975-984) runs for event `e`: collect the indices of satisfied
waits, then pop them in descending order. -/
def dispatchWaits {Ev : Type} (e : Ev) (waits : List (Wait Ev)) : List (Wait Ev) :=
  (sortDescend (collectIndices e waits 0)).foldl popAt waits

/-- The waits resolved (their futures completed) by one run of the waiter
loop of `Client.dispatch`, in scan order. -/
def resolvedWaits {Ev : Type} (e : Ev) : List (Wait Ev) → List (Wait Ev)
  | [] => []
  | w :: rest =>
    if waitCall w e then w :: resolvedWaits e rest else resolvedWaits e rest

/-! ## Listener task isolation (C1)

`src/naff/client/client.py`, `Client._queue_task` (lines 568-591): each
listener runs inside `_async_wrap`, whose `try` / `except
asyncio.CancelledError` / `except Exception` structure is exhaustive, so
no exception leaves the task. -/

/-- The `isinstance` class of the triggering event: `events.Error`,
`events.RawGatewayEvent`, or anything else. -/
inductive EvClass where
  | errorEvent
  | rawGatewayEvent
  | plain
deriving DecidableEq

/-- The fields of the triggering `BaseEvent` that `_queue_task` reads:
its class, its `repr`, and `len(event.__attrs_attrs__)` (which only
selects the call arity). -/
structure BEvent where
  cls : EvClass
  reprStr : List Char
  numAttrs : Nat
deriving DecidableEq

/-- How the body of `_async_wrap`'s `try` block ends: normally, with
`asyncio.CancelledError`, or with another exception (identified by a
code). -/
inductive CallOutcome where
  | ok
  | cancelled
  | raised (e : Nat)
deriving DecidableEq

/-- The `events.Error(source=..., error=...)` value built on line 587. -/
structure ErrorEvent where
  source : List Char
  error : Nat
deriving DecidableEq

/-- The observable effect of one wrapped listener task.  The `except`
clauses of `_async_wrap` cover every exception, so the type has no
"exception propagated" case. -/
inductive TaskEffect where
  | silent
  | handledDefault (source : List Char) (error : Nat)
  | dispatchedError (ev : ErrorEvent)
deriving DecidableEq

/-- What one wrapped task did. -/
structure TaskRun where
  waitedForReady : Bool
  effect : TaskEffect
deriving DecidableEq

/-- `Client._queue_task`'s `_async_wrap` (lines 569-587): wait for
readiness when required (never for `Error` / `RawGatewayEvent` events),
run the callback; swallow `CancelledError`; on another exception, call
the non-recursive `default_error_handler` when the triggering event is an
`Error` event, otherwise dispatch a fresh `Error` event carrying
`repr(event)` and the exception. -/
def queueTaskWrap (event : BEvent) (delay_until_ready is_ready : Bool)
    (outcome : CallOutcome) : TaskRun :=
  let waited :=
    !(event.cls = EvClass.errorEvent || event.cls = EvClass.rawGatewayEvent) &&
      (delay_until_ready && !is_ready)
  match outcome with
  | .ok => ⟨waited, .silent⟩
  | .cancelled => ⟨waited, .silent⟩
  | .raised e =>
    if event.cls = EvClass.errorEvent then
      ⟨waited, .handledDefault event.reprStr e⟩
    else
      ⟨waited, .dispatchedError ⟨event.reprStr, e⟩⟩

/-- The listener part of `Client.dispatch` (lines 963-973): one
`_queue_task` per registered listener, in registration order.  Each
listener is summarized by its `delay_until_ready` flag and how its
callback ends. -/
def dispatchTasks (event : BEvent) (is_ready : Bool)
    (listeners : List (Bool × CallOutcome)) : List TaskRun :=
  listeners.map (fun p => queueTaskWrap event p.1 is_ready p.2)

/-- The `Error` events dispatched by a batch of wrapped tasks. -/
def errorEventsOf (runs : List TaskRun) : List ErrorEvent :=
  runs.foldr
    (fun r acc =>
      match r.effect with
      | .dispatchedError ev => ev :: acc
      | _ => acc)
    []

/-! ## Structured-command registration (C4, C5)

`src/naff/client/client.py`, `Client.add_interaction` (lines 1177-1226)
and `Client.add_prefixed_command` (lines 1265-1293).  A raised
`ValueError` / `TypeError` is embedded as a result whose `error` field is
set and whose `state` field is the registries at the moment of the raise
(mutations made before the raise persist, as in Python). -/

/-- An `InteractionCommand`, with the fields `add_interaction` reads.
`uid` distinguishes distinct command objects; `isContextMenu` stands for
`isinstance(command, ContextMenu)` (a non-context-menu interaction
command is a `SlashCommand`). -/
structure ICommand where
  resolved_name : List Char
  scopes : List Nat
  hasCallback : Bool
  isContextMenu : Bool
  dm_permission : Bool
  uid : Nat
deriving DecidableEq

/-- A node of `self.interaction_tree[scope]`: a stored command object, or
a nested dict keyed by the next word of the resolved name. -/
inductive TNode where
  | leaf (c : ICommand)
  | branch (children : List (List Char × TNode))

/-- `isinstance(node, SlashCommand)`: a stored non-context-menu command. -/
def TNode.isSlashLeaf : TNode → Bool
  | .leaf c => !c.isContextMenu
  | .branch _ => false

/-- The children of a tree node (`{}` for a stored command, which Python
would refuse to index into). -/
def TNode.childrenOf : TNode → Option (List (List Char × TNode))
  | .leaf _ => none
  | .branch cs => some cs

/-- The command registries `add_interaction` mutates.  `checksAppended`
records, in order, the command uids for which
`command.checks.append(command._permission_enforcer)` ran (the `checks`
list lives on the shared command object, so it is kept apart from the
per-scope snapshots). -/
structure InteractionsState where
  interactions : List (Nat × List (List Char × ICommand))
  interaction_tree : List (Nat × List (List Char × TNode))
  checksAppended : List Nat

/-- The outcome of a registration call: the registries at return (or at
raise), the raised error's message when one was raised, and the returned
boolean otherwise (`add_interaction` returns a bool). -/
structure RegResult (σ : Type) where
  state : σ
  error : Option (List Char)
  returned : Bool

/-- Python `str.split(" ")` (splitting on every single space, no run
merging): always returns at least one piece. -/
def pySplitSpace : List Char → List (List Char)
  | [] => [[]]
  | c :: rest =>
    let r := pySplitSpace rest
    if c = ' ' then [] :: r
    else
      match r with
      | [] => [[c]]
      | h :: t => (c :: h) :: t

/-- `self.interaction_tree[scope]` (the scope's entry exists when the
tree insertion runs; `[]` is never reached). -/
def getTreeScope (st : InteractionsState) (scope : Nat) : List (List Char × TNode) :=
  (lookupA st.interaction_tree scope).getD []

/-- `self.interaction_tree[scope] = tscope` (assignment into the nested
dict). -/
def setTreeScope (st : InteractionsState) (scope : Nat)
    (tscope : List (List Char × TNode)) : InteractionsState :=
  { st with interaction_tree := insertA st.interaction_tree scope tscope }

/-- The tree-insertion ladder of `add_interaction` (lines 1212-1224),
one committed assignment at a time, as Python performs them on the
nested dicts in place.  Returns the state after the last assignment that
ran, and the raised error when indexing into a stored command object
raises (`TypeError` / `AttributeError`) — those mutations made before
the raise persist. -/
def interactionTreeInsert (command : ICommand) (base : List Char)
    (group sub : Option (List Char)) (scope : Nat) (st : InteractionsState) :
    InteractionsState × Option (List Char) :=
  if group.isNone || command.isContextMenu then
    -- `self.interaction_tree[scope][command.resolved_name] = command`
    (setTreeScope st scope
      (insertA (getTreeScope st scope) command.resolved_name (.leaf command)), none)
  else
    let g := group.getD []
    -- `if not (current := ...get(base)) or isinstance(current, SlashCommand):
    --    self.interaction_tree[scope][base] = {}`
    let st :=
      match lookupA (getTreeScope st scope) base with
      | none => setTreeScope st scope (insertA (getTreeScope st scope) base (.branch []))
      | some current =>
        if current.isSlashLeaf then
          setTreeScope st scope (insertA (getTreeScope st scope) base (.branch []))
        else st
    match sub with
    | none =>
      -- `self.interaction_tree[scope][base][group] = command`
      match lookupA (getTreeScope st scope) base with
      | some (TNode.branch cs) =>
        (setTreeScope st scope
          (insertA (getTreeScope st scope) base (.branch (insertA cs g (.leaf command)))), none)
      | _ => (st, some ("TypeError".data))
    | some sb =>
      match lookupA (getTreeScope st scope) base with
      | some (TNode.branch cs) =>
        -- `if not (current := ...get(group)) or isinstance(current, SlashCommand):
        --    self.interaction_tree[scope][base][group] = {}`
        let st :=
          match lookupA cs g with
          | none =>
            setTreeScope st scope
              (insertA (getTreeScope st scope) base (.branch (insertA cs g (.branch []))))
          | some current =>
            if current.isSlashLeaf then
              setTreeScope st scope
                (insertA (getTreeScope st scope) base (.branch (insertA cs g (.branch []))))
            else st
        -- `self.interaction_tree[scope][base][group][sub] = command`
        match lookupA (getTreeScope st scope) base with
        | some (TNode.branch cs2) =>
          match lookupA cs2 g with
          | some (TNode.branch cs3) =>
            (setTreeScope st scope
              (insertA (getTreeScope st scope) base
                (.branch (insertA cs2 g (.branch (insertA cs3 sb (.leaf command)))))), none)
          | _ => (st, some ("TypeError".data))
        | _ => (st, some ("TypeError".data))
      | _ => (st, some ("AttributeError".data))

/-- One iteration of `for scope in command.scopes` in `add_interaction`
(lines 1197-1224), then the rest of the loop.  Stops at the first raise,
keeping the mutations already made. -/
def addInteractionLoop (command : ICommand) (base : List Char)
    (group sub : Option (List Char)) (enforce_perms : Bool) :
    List Nat → InteractionsState → RegResult InteractionsState
  | [], st => ⟨st, none, true⟩
  | scope :: rest, st =>
    -- `if scope not in self.interactions: self.interactions[scope] = {}`
    -- `elif command.resolved_name in self.interactions[scope]: raise ValueError`
    match
      (match lookupA st.interactions scope with
      | none => Except.ok { st with interactions := insertA st.interactions scope [] }
      | some m =>
        if memA m command.resolved_name then Except.error ("Duplicate Command!".data)
        else Except.ok st) with
    | .error msg => ⟨st, some msg, false⟩
    | .ok st =>
      -- `if self.enforce_interaction_perms: command.checks.append(...)`
      let st := if enforce_perms then
          { st with checksAppended := st.checksAppended ++ [command.uid] }
        else st
      -- `self.interactions[scope][command.resolved_name] = command`
      let st := { st with
        interactions := insertA st.interactions scope
          (insertA ((lookupA st.interactions scope).getD [])
            command.resolved_name command) }
      -- `if scope not in self.interaction_tree: self.interaction_tree[scope] = {}`
      let st := if memA st.interaction_tree scope then st
        else { st with interaction_tree := insertA st.interaction_tree scope [] }
      match interactionTreeInsert command base group sub scope st with
      | (st, some msg) => ⟨st, some msg, false⟩
      | (st, none) => addInteractionLoop command base group sub enforce_perms rest st

/-- `Client.add_interaction` (lines 1177-1226).  `debug_scope`,
`disable_dm_commands` and `enforce_interaction_perms` are the client
fields the method reads. -/
def addInteraction (debug_scope : Option Nat)
    (disable_dm_commands enforce_perms : Bool) (command : ICommand)
    (st : InteractionsState) : RegResult InteractionsState :=
  let command :=
    match debug_scope with
    | some d => { command with scopes := [d] }
    | none => command
  let command :=
    if disable_dm_commands then { command with dm_permission := false }
    else command
  if !command.hasCallback then ⟨st, none, false⟩
  else
    -- `base, group, sub, *_ = command.resolved_name.split(" ") + [None, None]`
    let parts := pySplitSpace command.resolved_name
    let base := parts.headD []
    let group := parts.get? 1
    let sub := parts.get? 2
    addInteractionLoop command base group sub enforce_perms command.scopes st

/-- A `PrefixedCommand`, with the fields `add_prefixed_command` reads. -/
structure PrefCommand where
  name : List Char
  aliases : List (List Char)
  uid : Nat
deriving DecidableEq

/-- The `for alias in command.aliases` loop of `add_prefixed_command`
(lines 1290-1293). -/
def addPrefixedAliases (command : PrefCommand) :
    List (List Char) → List (List Char × PrefCommand) →
    RegResult (List (List Char × PrefCommand))
  | [], m => ⟨m, none, true⟩
  | a :: rest, m =>
    if memA m a then ⟨m, some ("Duplicate command!".data), false⟩
    else addPrefixedAliases command rest (insertA m a command)

/-- `Client.add_prefixed_command` (lines 1265-1293).  The intent warning
only logs; `command._parse_parameters()` mutates the command object, not
the registry.  The command is stored under its name, then under each
alias, raising at the first name/alias already taken. -/
def addPrefixedCommand (command : PrefCommand)
    (prefixed_commands : List (List Char × PrefCommand)) :
    RegResult (List (List Char × PrefCommand)) :=
  if memA prefixed_commands command.name then
    ⟨prefixed_commands, some ("Duplicate command!".data), false⟩
  else
    addPrefixedAliases command command.aliases
      (insertA prefixed_commands command.name command)

/-! ## Interaction router (C8, C9)

`src/naff/client/client.py`, `Client._dispatch_interaction`
(lines 1657-1753). -/

/-- Modelled from the spec: the numeric values of the `InteractionTypes`
enum (`naff.models`, not under `src/`) — the router "classifies inbound
structured-interaction envelopes by a type tag"; the values follow the
remote protocol, and only their distinctness matters here. -/
def InteractionTypesPING : Nat := 1

/-- Modelled from the spec: `InteractionTypes.APPLICATION_COMMAND`. -/
def InteractionTypesAPPLICATION_COMMAND : Nat := 2

/-- Modelled from the spec: `InteractionTypes.MESSAGE_COMPONENT`. -/
def InteractionTypesMESSAGE_COMPONENT : Nat := 3

/-- Modelled from the spec: `InteractionTypes.AUTOCOMPLETE`. -/
def InteractionTypesAUTOCOMPLETE : Nat := 4

/-- Modelled from the spec: `InteractionTypes.MODAL_RESPONSE`. -/
def InteractionTypesMODAL_RESPONSE : Nat := 5

/-- Modelled from the spec: `ComponentTypes.BUTTON` (a component
"pressed" variant). -/
def ComponentTypesBUTTON : Nat := 2

/-- Modelled from the spec: `ComponentTypes.STRING_SELECT` (a component
"selected" variant). -/
def ComponentTypesSTRING_SELECT : Nat := 3

/-- An event dispatched by `_dispatch_interaction` (the payloads the
claims do not inspect are dropped; a carried exception keeps its code). -/
inductive DEvent where
  | autocompleteError (e : Nat)
  | autocompleteCompletion
  | commandError (e : Nat)
  | commandCompletion
  | component
  | componentError (e : Nat)
  | componentCompletion
  | buttonPressed
  | select
  | modalCompletion
  | modalError (e : Nat)
deriving DecidableEq

/-- How `_dispatch_interaction` can abort: the final `else` branch raises
`NotImplementedError`, and `self.interactions[scope][ctx.invoke_target]`
raises `KeyError` when the resolved name is not registered. -/
inductive RouterErr where
  | notImplemented (ty : Nat)
  | keyError
deriving DecidableEq

/-- The fields of the raw interaction envelope `event.data` that
`_dispatch_interaction` reads.  `invokeTarget` and `customId` stand for
the context fields the context object derives from the payload. -/
structure RawInteraction where
  ty : Nat
  dataId : Nat
  invokeTarget : List Char
  customId : List Char
  componentType : Nat
  focussedOption : Option (List Char)
deriving DecidableEq

/-- How each awaited callback of the router's branches ends: `none` for a
normal return, `some e` for an exception with code `e`. -/
structure RunOutcomes where
  autocompleteCb : Option Nat
  deferRun : Option Nat
  preRun : Option Nat
  cmdRun : Option Nat
  postRun : Option Nat
  componentCb : Option Nat
  modalCb : Option Nat
deriving DecidableEq

/-- The client state `_dispatch_interaction` reads:
`self._interaction_scopes` (keyed by the stringified command id, embedded
by the id itself), `self.interactions`, the component/modal callback
tables, and whether `pre_run_callback` / `post_run_callback` are set. -/
structure RouterState where
  interaction_scopes : List (Nat × Nat)
  interactions : List (Nat × List (List Char × ICommand))
  component_callbacks : List (List Char × Nat)
  modal_callbacks : List (List Char × Nat)
  hasPreRun : Bool
  hasPostRun : Bool

/-- The first exception of the `auto_defer` / `pre_run_callback` /
command body / `post_run_callback` sequence of the command branch
(lines 1698-1704): later steps do not run once one raises. -/
def commandSeqFailure (st : RouterState) (oc : RunOutcomes) : Option Nat :=
  match oc.deferRun with
  | some e => some e
  | none =>
    match (if st.hasPreRun then oc.preRun else none) with
    | some e => some e
    | none =>
      match oc.cmdRun with
      | some e => some e
      | none => if st.hasPostRun then oc.postRun else none

/-- The first exception of the `pre_run_callback` / callback /
`post_run_callback` sequence of the component and modal branches. -/
def callbackSeqFailure (st : RouterState) (cb : Option Nat)
    (oc : RunOutcomes) : Option Nat :=
  match (if st.hasPreRun then oc.preRun else none) with
  | some e => some e
  | none =>
    match cb with
    | some e => some e
    | none => if st.hasPostRun then oc.postRun else none

/-- `Client._dispatch_interaction` (lines 1657-1753): the events it
dispatches, in order, or the exception that leaves it. -/
def dispatchInteraction (st : RouterState) (oc : RunOutcomes)
    (d : RawInteraction) : Except RouterErr (List DEvent) :=
  if d.ty = InteractionTypesPING || d.ty = InteractionTypesAPPLICATION_COMMAND
      || d.ty = InteractionTypesAUTOCOMPLETE then
    -- `scope = self._interaction_scopes.get(str(interaction_id))`
    -- `if scope in self.interactions:` (`None` is never a key)
    match lookupA st.interaction_scopes d.dataId with
    | none => .ok []   -- `self.logger.error("Unknown cmd_id received...")`
    | some scope =>
      match lookupA st.interactions scope with
      | none => .ok []   -- same log-and-drop `else`
      | some inner =>
        -- `ctx.command = self.interactions[scope][ctx.invoke_target]`
        match lookupA inner d.invokeTarget with
        | none => .error .keyError
        | some _ =>
          match d.focussedOption with
          | some _ =>
            .ok ((match oc.autocompleteCb with
              | some e => [.autocompleteError e]
              | none => []) ++ [.autocompleteCompletion])
          | none =>
            .ok ((match commandSeqFailure st oc with
              | some e => [.commandError e]
              | none => []) ++ [.commandCompletion])
  else if d.ty = InteractionTypesMESSAGE_COMPONENT then
    let cbEvents :=
      match lookupA st.component_callbacks d.customId with
      | none => []
      | some _ =>
        (match callbackSeqFailure st oc.componentCb oc with
          | some e => [.componentError e]
          | none => []) ++ [.componentCompletion]
    .ok ([.component] ++ cbEvents
      ++ (if d.componentType = ComponentTypesBUTTON then [.buttonPressed] else [])
      ++ (if d.componentType = ComponentTypesSTRING_SELECT then [.select] else []))
  else if d.ty = InteractionTypesMODAL_RESPONSE then
    let cbEvents :=
      match lookupA st.modal_callbacks d.customId with
      | none => []
      | some _ =>
        match callbackSeqFailure st oc.modalCb oc with
        | some e => [.modalError e]
        | none => []
    .ok ([.modalCompletion] ++ cbEvents)
  else
    .error (.notImplemented d.ty)

/-! ## Prefixed-command resolution (C7)

`src/naff/client/client.py`, `Client._dispatch_prefixed_commands`
(lines 1755-1876); the claims concern the resolution part starting at
line 1809. -/

/-- A `PrefixedCommand` as the resolver walk reads it: `canRun` records
whether `await command._can_run(context)` succeeds (it raises on a
failing check), `uid` identifies the command object. -/
inductive PCmd where
  | mk (name : List Char) (enabled : Bool)
      (subcommands : List (List Char × PCmd))
      (hierarchical_checking : Bool) (canRun : Bool) (uid : Nat)

/-- The `name` of a prefixed command. -/
def PCmd.name : PCmd → List Char
  | .mk n _ _ _ _ _ => n

/-- The `enabled` flag of a prefixed command. -/
def PCmd.enabled : PCmd → Bool
  | .mk _ e _ _ _ _ => e

/-- The `subcommands` table of a prefixed command. -/
def PCmd.subcommands : PCmd → List (List Char × PCmd)
  | .mk _ _ s _ _ _ => s

/-- The `hierarchical_checking` flag of a prefixed command. -/
def PCmd.hierarchical_checking : PCmd → Bool
  | .mk _ _ _ h _ _ => h

/-- Whether `await command._can_run(context)` succeeds. -/
def PCmd.canRun : PCmd → Bool
  | .mk _ _ _ _ r _ => r

/-- The identity of the command object. -/
def PCmd.uid : PCmd → Nat
  | .mk _ _ _ _ _ u => u

/-- One entry of the configured prefix collection: a literal string, or
the `MENTION_PREFIX` sentinel. -/
inductive PrefixSpec where
  | lit (p : List Char)
  | mention

/-- The `for prefix in prefixes` selection loop (lines 1811-1820): a
`MENTION_PREFIX` entry is replaced by the text matched by the
mention regex (given here as `mentionMatch`, the result of
`self._mention_reg.search(message.content)`), then the first entry the
content starts with wins. -/
def pickPrefixUsed (mentionMatch : Option (List Char)) (content : List Char) :
    List PrefixSpec → Option (List Char)
  | [] => none
  | .mention :: rest =>
    (match mentionMatch with
    | some m =>
      if startsWithPy content m then some m
      else pickPrefixUsed mentionMatch content rest
    | none => pickPrefixUsed mentionMatch content rest)
  | .lit p :: rest =>
    if startsWithPy content p then some p
    else pickPrefixUsed mentionMatch content rest

/-- The `while True` subcommand walk (lines 1837-1859) after the first
descent, fuelled by the length of the remaining text (each iteration that
descends strictly shortens it, as proven below): take the next word, look
it up in the current command's subcommand table, stop when it is absent
or disabled; after a descent, run the hierarchical check when the new
command has subcommands and asks for it.  Returns `none` when the fuel
runs out (shown unreachable below), `some (.error ())` for the
check-failure return path (a `CommandError`-style dispatch), and
`some (.ok (cmd, rest))` for a normal exit with the final command and the
unconsumed trailing text. -/
def walkSub : Nat → PCmd → List Char → Option (Except Unit (PCmd × List Char))
  | 0, _, _ => none
  | n + 1, command, content_parameters =>
    match getFirstWord content_parameters with
    | none => some (.ok (command, content_parameters))
    | some first_word =>
      match lookupA command.subcommands first_word with
      | none => some (.ok (command, content_parameters))
      | some new_command =>
        if !new_command.enabled then some (.ok (command, content_parameters))
        else
          let cp := stripPy (removePre content_parameters first_word)
          if !new_command.subcommands.isEmpty && new_command.hierarchical_checking
              && !new_command.canRun then
            some (.error ())
          else
            walkSub n new_command cp

/-- The first iteration of the walk, where the lookup table is
`self.prefixed_commands` (the `command = self` hack): `some .none`
when the loop breaks while `command` is still the client (no command
resolved). -/
def walkTop (prefixed_commands : List (List Char × PCmd))
    (content_parameters : List Char) :
    Option (Except Unit (Option (PCmd × List Char))) :=
  match getFirstWord content_parameters with
  | none => some (.ok none)
  | some first_word =>
    match lookupA prefixed_commands first_word with
    | none => some (.ok none)
    | some new_command =>
      if !new_command.enabled then some (.ok none)
      else
        let cp := stripPy (removePre content_parameters first_word)
        if !new_command.subcommands.isEmpty && new_command.hierarchical_checking
            && !new_command.canRun then
          some (.error ())
        else
          match walkSub content_parameters.length new_command cp with
          | none => none
          | some (.error u) => some (.error u)
          | some (.ok r) => some (.ok (some r))

/-- The outcome of `_dispatch_prefixed_commands` from line 1809 on. -/
inductive PrefixResolution where
  | noMatch
  | checkError
  | invoke (prefix_used : List Char) (uid : Nat)
      (invoke_target : List Char) (args_text : List Char)
deriving DecidableEq

/-- `Client._dispatch_prefixed_commands`, resolution part
(lines 1809-1866): pick the prefix, strip it, walk the subcommand chain;
on a normal exit require an actual enabled command; reconstruct
`ctx.invoke_target` as
`message.content.removeprefix(prefix_used).removesuffix(content_parameters).strip()`
(line 1865) and keep the unconsumed `content_parameters` as the argument
text.  Returns `none` only on fuel exhaustion (shown unreachable). -/
def dispatchPrefixedCore (prefixed_commands : List (List Char × PCmd))
    (mentionMatch : Option (List Char)) (prefixes : List PrefixSpec)
    (content : List Char) : Option PrefixResolution :=
  match pickPrefixUsed mentionMatch content prefixes with
  | none => some .noMatch
  | some prefix_used =>
    let content_parameters := removePre content prefix_used
    match walkTop prefixed_commands content_parameters with
    | none => none
    | some (.error _) => some .checkError
    | some (.ok none) => some .noMatch
    | some (.ok (some (command, cp))) =>
      if !command.enabled then some .noMatch
      else
        some (.invoke prefix_used command.uid
          (stripPy (removeSuf (removePre content prefix_used) cp)) cp)

/-! ## Concrete instances used by the witnesses and counterexamples -/

/-- A library-provided default listener for event `"e"`. -/
def sampleDefaultListener : Listener := ⟨['e'], true, false, 0⟩

/-- A user listener for event `"e"` that disables default listeners. -/
def sampleDisablerListener : Listener := ⟨['e'], false, true, 1⟩

/-- A second default listener for event `"e"`. -/
def sampleDefaultListener2 : Listener := ⟨['e'], true, false, 2⟩

/-- A registry holding only the default listener for `"e"`. -/
def sampleReg0 : ListenerReg :=
  fun n => if n = ['e'] then [sampleDefaultListener] else []

/-- A registry holding only the disabling listener for `"e"`. -/
def sampleReg1 : ListenerReg :=
  fun n => if n = ['e'] then [sampleDisablerListener] else []

/-- A command already registered under scope `9` as `"ban"`. -/
def sampleCmd1 : ICommand := ⟨"ban".data, [9], true, false, true, 21⟩

/-- A second command with the same resolved name, targeting scopes
`[3, 9]` (so scope `3` is inserted before the conflict at scope `9`). -/
def sampleCmd2 : ICommand := ⟨"ban".data, [3, 9], true, false, true, 22⟩

/-- The registries after `sampleCmd1` was registered under scope `9`. -/
def sampleIState : InteractionsState :=
  ⟨[(9, [("ban".data, sampleCmd1)])], [(9, [("ban".data, .leaf sampleCmd1)])], []⟩

/-- A prefixed command named `"b"`, already registered. -/
def samplePrefB : PrefCommand := ⟨['b'], [], 10⟩

/-- A prefixed command named `"a"` whose alias `"b"` collides with
`samplePrefB`. -/
def samplePrefA : PrefCommand := ⟨['a'], [['b']], 11⟩

/-- The prefixed-command table holding only `samplePrefB`. -/
def samplePrefTable : List (List Char × PrefCommand) := [(['b'], samplePrefB)]

/-- The registered `"ban"` prefixed command of C7's scenario: top-level,
enabled, with no subcommands. -/
def banCmd : PCmd := .mk "ban".data true [] false true 77

/-- The prefixed-command table of C7's scenario. -/
def banTable : List (List Char × PCmd) := [("ban".data, banCmd)]

/-- A router state: command id `5` is cached for scope `9`, and scope `9`
has the `"ban"` command registered. -/
def sampleRouterState : RouterState :=
  ⟨[(5, 9)], [(9, [("ban".data, sampleCmd1)])], [], [], false, false⟩

/-- Run outcomes where every awaited callback returns normally. -/
def sampleOutcomes : RunOutcomes := ⟨none, none, none, none, none, none, none⟩

/-! ## Theorems -/

/-- C6, counterexample: the claim says the stored event name is
lower-case, so that `"On_Message_Create"` and `"message_create"` yield
the same routing key; but `Listener.create` never lower-cases, and the
two spellings yield different keys. -/
theorem C6_counterexample :
    listenerCreateName (some ("On_Message_Create".data)) [] ≠
      listenerCreateName (some ("message_create".data)) [] := by
  decide

/-- C6 (amended): for every listener created via `Listener.create` and
every processor registered via `add_event_processor`, the stored event
name is the given name with every leading underscore stripped and then a
single leading `"on_"` removed, case-sensitively; both paths agree, so
`"_on_message_create"` and `"message_create"` yield the same key
`"message_create"` — but the name is not lower-cased, so
`"On_Message_Create"` is stored verbatim and yields a different key. -/
theorem C6_amended_normalization :
    (∀ event_name coroName,
      listenerCreateName event_name coroName = processorEventName event_name coroName)
  ∧ listenerCreateName (some ("_on_message_create".data)) [] = "message_create".data
  ∧ listenerCreateName (some ("message_create".data)) [] = "message_create".data
  ∧ listenerCreateName (some ("On_Message_Create".data)) [] = "On_Message_Create".data := by
  exact ⟨fun _ _ => rfl, by decide, by decide, by decide⟩

/-- Mapping a boolean field then testing `any id` is testing `any` of the
field directly (the shape `add_listener` builds its condition in). -/
theorem anyMapId {α : Type} (l : List α) (f : α → Bool) :
    (l.map f).any id = l.any f := by
  induction l with
  | nil => rfl
  | cons a t ih => simp [ih]

/-- Evaluation of `addListener`: the updated registry pointwise. -/
theorem addListener_eval (reg : ListenerReg) (listener : Listener) (n : List Char) :
    addListener reg listener n =
      (if n = listener.event then
        (if ((reg listener.event ++ [listener]).any
              (fun c => c.is_default_listener) &&
            (reg listener.event ++ [listener]).any
              (fun c => c.disable_default_listeners)) then
          (reg listener.event ++ [listener]).filter
            (fun c => !c.is_default_listener)
        else reg listener.event ++ [listener])
      else reg n) := by
  unfold addListener
  simp only [anyMapId]

/-- C3: after `add_listener` appends a listener to its event's list, if
the list holds at least one default listener and at least one listener
with the disable-default-listeners flag, every default listener for that
event is removed while all non-default listeners remain in insertion
order (the list becomes the filtered append), and no other event's list
changes. -/
theorem C3_default_suppression (reg : ListenerReg) (listener : Listener)
    (hdef : (reg listener.event ++ [listener]).any
      (fun c => c.is_default_listener) = true)
    (hdis : (reg listener.event ++ [listener]).any
      (fun c => c.disable_default_listeners) = true) :
    addListener reg listener listener.event =
      (reg listener.event ++ [listener]).filter (fun c => !c.is_default_listener)
  ∧ ∀ n, n ≠ listener.event → addListener reg listener n = reg n := by
  constructor
  · rw [addListener_eval, if_pos rfl, if_pos (by rw [hdef, hdis]; rfl)]
  · intro n hn
    rw [addListener_eval, if_neg hn]

/-- C10: `add_listener` preserves the invariant that an event list
holding a disable-default-listeners listener holds no default listener;
and adding a default listener to an event whose list already holds a
disabling listener leaves that event's list unchanged. -/
theorem C10_disable_invariant (reg : ListenerReg) (listener : Listener)
    (hinv : ∀ n, noDefaultsIfDisabler (reg n)) :
    (∀ n, noDefaultsIfDisabler (addListener reg listener n))
  ∧ (listener.is_default_listener = true →
      (∃ c ∈ reg listener.event, c.disable_default_listeners = true) →
      addListener reg listener listener.event = reg listener.event) := by
  constructor
  · intro n
    rw [addListener_eval]
    by_cases hn : n = listener.event
    · rw [if_pos hn]
      by_cases hc : ((reg listener.event ++ [listener]).any
            (fun c => c.is_default_listener) &&
          (reg listener.event ++ [listener]).any
            (fun c => c.disable_default_listeners)) = true
      · rw [if_pos hc]
        intro _ c hcmem
        have := (List.mem_filter.mp hcmem).2
        simpa using this
      · rw [if_neg hc]
        intro hex c hcmem
        simp only [Bool.and_eq_true, not_and] at hc
        rcases hex with ⟨c0, hc0mem, hc0dis⟩
        have hdis : (reg listener.event ++ [listener]).any
            (fun c => c.disable_default_listeners) = true :=
          List.any_eq_true.mpr ⟨c0, hc0mem, hc0dis⟩
        have hdef : (reg listener.event ++ [listener]).any
            (fun c => c.is_default_listener) = false := by
          cases hfd : (reg listener.event ++ [listener]).any
              (fun c => c.is_default_listener) with
          | false => rfl
          | true => exact absurd hdis (hc hfd)
        have := List.any_eq_false.mp hdef c hcmem
        simpa using this
    · rw [if_neg hn]
      exact hinv n
  · intro hld hex
    rw [addListener_eval, if_pos rfl]
    have hall : ∀ c ∈ reg listener.event, c.is_default_listener = false :=
      hinv listener.event
        (by rcases hex with ⟨c0, hc0mem, hc0dis⟩; exact ⟨c0, hc0mem, hc0dis⟩)
    have hc : ((reg listener.event ++ [listener]).any
          (fun c => c.is_default_listener) &&
        (reg listener.event ++ [listener]).any
          (fun c => c.disable_default_listeners)) = true := by
      rw [Bool.and_eq_true]
      constructor
      · exact List.any_eq_true.mpr ⟨listener, by simp, hld⟩
      · rcases hex with ⟨c0, hc0mem, hc0dis⟩
        exact List.any_eq_true.mpr ⟨c0, List.mem_append.mpr (Or.inl hc0mem), hc0dis⟩
    rw [if_pos hc, List.filter_append]
    have h1 : (reg listener.event).filter (fun c => !c.is_default_listener) =
        reg listener.event := by
      rw [List.filter_eq_self]
      intro c hcmem
      simp [hall c hcmem]
    have h2 : [listener].filter (fun c => !c.is_default_listener) = [] := by
      simp [hld]
    rw [h1, h2, List.append_nil]

/-- C1: inside the dispatcher's task wrapper, a `CancelledError` is
swallowed silently; an exception during an `Error` event goes to the
non-recursive `default_error_handler` (carrying the event's `repr` and
the exception) and dispatches nothing; an exception during any other
event dispatches exactly one fresh `Error` event carrying the event's
`repr` and the exception — so a batch of listeners dispatches exactly
one `Error` event per failing listener, in order, and none when the
triggering event is itself an `Error` event. -/
theorem C1_listener_isolation (event : BEvent) (d r : Bool) (e : Nat)
    (ls : List (Bool × CallOutcome)) :
    (queueTaskWrap event d r .cancelled).effect = .silent
  ∧ (event.cls = .errorEvent →
      (queueTaskWrap event d r (.raised e)).effect =
        .handledDefault event.reprStr e)
  ∧ (event.cls ≠ .errorEvent →
      (queueTaskWrap event d r (.raised e)).effect =
        .dispatchedError ⟨event.reprStr, e⟩)
  ∧ errorEventsOf (dispatchTasks event r ls) =
      (if event.cls = .errorEvent then []
       else ls.filterMap (fun p =>
         match p.2 with
         | .raised e2 => some ⟨event.reprStr, e2⟩
         | _ => none)) := by
  refine ⟨rfl, ?_, ?_, ?_⟩
  · intro h
    simp [queueTaskWrap, h]
  · intro h
    simp [queueTaskWrap, h]
  · induction ls with
    | nil => by_cases hcls : event.cls = .errorEvent <;>
        simp [dispatchTasks, errorEventsOf, hcls]
    | cons p tl ih =>
      by_cases hcls : event.cls = .errorEvent
      · simp only [if_pos hcls] at ih ⊢
        cases hp : p.2 <;>
          simp [dispatchTasks, errorEventsOf, queueTaskWrap, hcls, hp] at ih ⊢ <;>
          simpa [dispatchTasks, errorEventsOf] using ih
      · simp only [if_neg hcls] at ih ⊢
        cases hp : p.2 <;>
          simp [dispatchTasks, errorEventsOf, queueTaskWrap, hcls, hp] at ih ⊢ <;>
          simpa [dispatchTasks, errorEventsOf] using ih

/-- C1, witness: a plain event with a failing listener dispatches exactly
the one `Error` event carrying the event's `repr` and the exception. -/
theorem C1_listener_isolation_witness :
    (queueTaskWrap ⟨.plain, "ev".data, 3⟩ false true (.raised 7)).effect =
      .dispatchedError ⟨"ev".data, 7⟩ :=
  (C1_listener_isolation ⟨.plain, "ev".data, 3⟩ false true 7 []).2.2.1 (by decide)

/-- Popping at a successor index keeps the head. -/
theorem popAt_cons_succ {α : Type} (x : α) (l : List α) (i : Nat) :
    popAt (x :: l) (i + 1) = x :: popAt l i := by
  simp [popAt, List.take_succ_cons, List.drop_succ_cons]

/-- Popping a batch of shifted indices keeps the head and pops the
unshifted indices from the tail. -/
theorem foldl_popAt_map_succ {α : Type} (idxs : List Nat) (x : α) (l : List α) :
    (idxs.map (· + 1)).foldl popAt (x :: l) = x :: idxs.foldl popAt l := by
  induction idxs generalizing l with
  | nil => rfl
  | cons i t ih =>
    simp only [List.map_cons, List.foldl_cons, popAt_cons_succ]
    exact ih (popAt l i)

/-- Shifting the enumeration start by one shifts every collected index. -/
theorem collectIndices_succ {Ev : Type} (e : Ev) (ws : List (Wait Ev)) (i : Nat) :
    collectIndices e ws (i + 1) = (collectIndices e ws i).map (· + 1) := by
  induction ws generalizing i with
  | nil => rfl
  | cons w t ih =>
    by_cases h : waitCall w e <;>
      simp [collectIndices, h, ih (i + 1)]

/-- Every collected index is at least the enumeration start. -/
theorem collectIndices_ge {Ev : Type} (e : Ev) (ws : List (Wait Ev)) (i : Nat) :
    ∀ j ∈ collectIndices e ws i, i ≤ j := by
  induction ws generalizing i with
  | nil => intro j hj; simp [collectIndices] at hj
  | cons w t ih =>
    intro j hj
    simp only [collectIndices, List.mem_append] at hj
    rcases hj with hj | hj
    · by_cases h : waitCall w e
      · rw [if_pos h] at hj
        simp at hj
        omega
      · rw [if_neg h] at hj
        simp at hj
    · have := ih (i + 1) j hj
      omega

/-- The collected indices are strictly ascending. -/
theorem collectIndices_pairwise {Ev : Type} (e : Ev) (ws : List (Wait Ev))
    (i : Nat) : (collectIndices e ws i).Pairwise (· < ·) := by
  induction ws generalizing i with
  | nil => simp [collectIndices]
  | cons w t ih =>
    rw [collectIndices, List.pairwise_append]
    refine ⟨?_, ih (i + 1), ?_⟩
    · by_cases h : waitCall w e <;> simp [h]
    · intro a ha b hb
      have hb' := collectIndices_ge e t (i + 1) b hb
      by_cases h : waitCall w e
      · rw [if_pos h] at ha
        simp at ha
        omega
      · rw [if_neg h] at ha
        simp at ha

/-- Inserting below every element of a descending list appends at the
end. -/
theorem insertDescend_of_forall_lt (a : Nat) (m : List Nat)
    (h : ∀ b ∈ m, a < b) : insertDescend a m = m ++ [a] := by
  induction m with
  | nil => rfl
  | cons b t ih =>
    rw [insertDescend, if_neg (Nat.not_le.mpr (h b (by simp)))]
    rw [ih (fun b hb => h b (by simp [hb]))]
    rfl

/-- Descending-sorting a strictly ascending list reverses it. -/
theorem sortDescend_of_pairwise (l : List Nat) (h : l.Pairwise (· < ·)) :
    sortDescend l = l.reverse := by
  induction l with
  | nil => rfl
  | cons a t ih =>
    rw [List.pairwise_cons] at h
    rw [sortDescend, ih h.2,
      insertDescend_of_forall_lt a t.reverse
        (fun b hb => h.1 b (List.mem_reverse.mp hb)),
      List.reverse_cons]

/-- The waiter cleanup of `Client.dispatch` — collect the indices of the
satisfied waits, sort them descending, pop them one by one — is exactly
filtering the satisfied waits out. -/
theorem dispatchWaits_eq_filter {Ev : Type} (e : Ev) (ws : List (Wait Ev)) :
    dispatchWaits e ws = ws.filter (fun w => !waitCall w e) := by
  induction ws with
  | nil => rfl
  | cons w t ih =>
    have hrev : ∀ (l : List (Wait Ev)),
        sortDescend (collectIndices e l 0) = (collectIndices e l 0).reverse :=
      fun l => sortDescend_of_pairwise _ (collectIndices_pairwise e l 0)
    unfold dispatchWaits at ih ⊢
    rw [hrev] at ih ⊢
    have hcol : collectIndices e (w :: t) 0 =
        (if waitCall w e then [0] else []) ++ (collectIndices e t 0).map (· + 1) := by
      rw [collectIndices, collectIndices_succ]
    rw [hcol, List.reverse_append, ← List.map_reverse, List.foldl_append,
      foldl_popAt_map_succ, ih]
    by_cases hp : waitCall w e
    · rw [if_pos hp]
      simp [popAt, List.filter_cons, hp]
    · rw [if_neg hp]
      simp [List.filter_cons, hp]

/-- The resolution loop resolves exactly the satisfied waits, in scan
order. -/
theorem resolvedWaits_eq_filter {Ev : Type} (e : Ev) (ws : List (Wait Ev)) :
    resolvedWaits e ws = ws.filter (fun w => waitCall w e) := by
  induction ws with
  | nil => rfl
  | cons w t ih =>
    by_cases hp : waitCall w e <;>
      simp [resolvedWaits, List.filter_cons, hp, ih]

/-- C2: one dispatch resolves exactly the waits whose predicate holds (in
registration order) and removes exactly those from the registry, leaving
every non-matching wait in place; hence a dispatch of the same event over
the remaining registry resolves nothing (no wait fires twice), and a
later dispatch acts independently on the still-registered waits. -/
theorem C2_waiter_single_fire {Ev : Type} (e e2 : Ev) (ws : List (Wait Ev)) :
    resolvedWaits e ws = ws.filter (fun w => waitCall w e)
  ∧ dispatchWaits e ws = ws.filter (fun w => !waitCall w e)
  ∧ resolvedWaits e (dispatchWaits e ws) = []
  ∧ dispatchWaits e2 (dispatchWaits e ws) =
      ws.filter (fun w => !waitCall w e2 && !waitCall w e) := by
  refine ⟨resolvedWaits_eq_filter e ws, dispatchWaits_eq_filter e ws, ?_, ?_⟩
  · rw [dispatchWaits_eq_filter, resolvedWaits_eq_filter, List.filter_filter]
    rw [List.filter_eq_nil_iff]
    intro w _
    cases h : waitCall w e <;> simp [h]
  · rw [dispatchWaits_eq_filter, dispatchWaits_eq_filter, List.filter_filter]

/-- C3, witness: registering the disabling listener after the default one
leaves only the non-default listener. -/
theorem C3_default_suppression_witness :
    ((sampleReg0 sampleDisablerListener.event ++ [sampleDisablerListener]).any
        (fun c => c.is_default_listener) = true)
  ∧ ((sampleReg0 sampleDisablerListener.event ++ [sampleDisablerListener]).any
        (fun c => c.disable_default_listeners) = true)
  ∧ addListener sampleReg0 sampleDisablerListener sampleDisablerListener.event =
      (sampleReg0 sampleDisablerListener.event ++ [sampleDisablerListener]).filter
        (fun c => !c.is_default_listener) :=
  ⟨by decide, by decide,
    (C3_default_suppression sampleReg0 sampleDisablerListener
      (by decide) (by decide)).1⟩

/-- C10, witness: adding a default listener to an event whose list
already holds a disabling listener leaves the list unchanged. -/
theorem C10_disable_invariant_witness :
    addListener sampleReg1 sampleDefaultListener2 sampleDefaultListener2.event =
      sampleReg1 sampleDefaultListener2.event :=
  (C10_disable_invariant sampleReg1 sampleDefaultListener2
    (by
      intro n
      unfold noDefaultsIfDisabler sampleReg1
      by_cases h : n = ['e'] <;> simp [h, sampleDisablerListener])).2
    (by decide) (by decide)

/-- Lookup after insertion: the inserted key maps to the new value,
every other key is untouched. -/
theorem lookupA_insertA {K V : Type} [DecidableEq K] (m : List (K × V))
    (k : K) (v : V) (k' : K) :
    lookupA (insertA m k v) k' = if k' = k then some v else lookupA m k' := by
  induction m with
  | nil =>
    simp [insertA, lookupA]
  | cons p t ih =>
    obtain ⟨k0, v0⟩ := p
    rw [insertA]
    by_cases h : k = k0
    · subst h
      rw [if_pos rfl, lookupA, lookupA]
      by_cases h' : k' = k <;> simp [h']
    · rw [if_neg h, lookupA, lookupA]
      by_cases h' : k' = k0
      · rw [if_pos h', if_pos h', if_neg (h' ▸ fun hk => h hk.symm)]
      · rw [if_neg h', if_neg h', ih]

/-- The tree-insertion ladder never touches the flat `self.interactions`
map. -/
theorem interactionTreeInsert_interactions (command : ICommand) (base : List Char)
    (group sub : Option (List Char)) (scope : Nat) (st : InteractionsState) :
    (interactionTreeInsert command base group sub scope st).1.interactions
      = st.interactions := by
  unfold interactionTreeInsert setTreeScope
  dsimp only
  repeat' split
  all_goals rfl

/-- The scope loop of `add_interaction`, run on a command whose resolved
name is already registered under some scope `s` of the list: it raises,
and scope `s`'s flat map still holds the previously registered command
afterwards. -/
theorem addInteractionLoop_dup (c : ICommand) (base : List Char)
    (group sub : Option (List Char)) (enf : Bool) (s : Nat) (c1 : ICommand) :
    ∀ (scopes : List Nat) (st : InteractionsState)
      (m : List (List Char × ICommand)),
      lookupA st.interactions s = some m →
      lookupA m c.resolved_name = some c1 →
      s ∈ scopes →
      (addInteractionLoop c base group sub enf scopes st).error.isSome = true
      ∧ ∃ m2,
          lookupA (addInteractionLoop c base group sub enf scopes st).state.interactions s
            = some m2
          ∧ lookupA m2 c.resolved_name = some c1 := by
  intro scopes
  induction scopes with
  | nil => intro st m _ _ hs; simp at hs
  | cons t rest ih =>
    intro st m hm hname hs
    simp only [addInteractionLoop]
    cases hlt : lookupA st.interactions t with
    | none =>
      have hst : ¬ s = t := fun h => by rw [h, hlt] at hm; exact Option.noConfusion hm
      have hs' : s ∈ rest := by
        rcases List.mem_cons.mp hs with h | h
        · exact absurd h hst
        · exact h
      simp only [hlt]
      split
      · rename_i st2 msg heq
        refine ⟨rfl, m, ?_, hname⟩
        have h2 := congrArg (fun p => p.1.interactions) heq
        have h3 := (interactionTreeInsert_interactions c base group sub t _).symm.trans h2
        dsimp at h3
        rw [← h3]
        simp only [apply_ite InteractionsState.interactions, ite_self]
        rw [lookupA_insertA, if_neg hst, lookupA_insertA, if_neg hst]
        exact hm
      · rename_i st2 heq
        have h2 := congrArg (fun p => p.1.interactions) heq
        have h3 := (interactionTreeInsert_interactions c base group sub t _).symm.trans h2
        dsimp at h3
        have hm2 : lookupA st2.interactions s = some m := by
          rw [← h3]
          simp only [apply_ite InteractionsState.interactions, ite_self]
          rw [lookupA_insertA, if_neg hst, lookupA_insertA, if_neg hst]
          exact hm
        exact ih st2 m hm2 hname hs'
    | some mt =>
      by_cases hmem : memA mt c.resolved_name = true
      · simp only [hlt, hmem, if_true]
        exact ⟨rfl, m, hm, hname⟩
      · have hst : ¬ s = t := by
          intro h
          rw [h, hlt] at hm
          have hmtm : mt = m := by cases hm; rfl
          rw [hmtm] at hmem
          exact hmem (by rw [memA, hname]; rfl)
        have hs' : s ∈ rest := by
          rcases List.mem_cons.mp hs with h | h
          · exact absurd h hst
          · exact h
        rw [Bool.not_eq_true] at hmem
        simp only [hlt, hmem, Bool.false_eq_true, if_false]
        split
        · rename_i st2 msg heq
          refine ⟨rfl, m, ?_, hname⟩
          have h2 := congrArg (fun p => p.1.interactions) heq
          have h3 := (interactionTreeInsert_interactions c base group sub t _).symm.trans h2
          dsimp at h3
          rw [← h3]
          simp only [apply_ite InteractionsState.interactions, ite_self]
          rw [lookupA_insertA, if_neg hst]
          exact hm
        · rename_i st2 heq
          have h2 := congrArg (fun p => p.1.interactions) heq
          have h3 := (interactionTreeInsert_interactions c base group sub t _).symm.trans h2
          dsimp at h3
          have hm2 : lookupA st2.interactions s = some m := by
            rw [← h3]
            simp only [apply_ite InteractionsState.interactions, ite_self]
            rw [lookupA_insertA, if_neg hst]
            exact hm
          exact ih st2 m hm2 hname hs'

/-- C4: registering an executable command whose resolved name is already
taken in one of its scopes raises a duplicate-command error, and that
scope's flat map still maps the name to the first-registered command
afterwards (the second registration never replaces the first). -/
theorem C4_duplicate_rejection (disable_dm enf : Bool) (c1 c2 : ICommand)
    (st : InteractionsState) (s : Nat) (m : List (List Char × ICommand))
    (hscope : s ∈ c2.scopes)
    (hm : lookupA st.interactions s = some m)
    (hname : lookupA m c2.resolved_name = some c1)
    (hcb : c2.hasCallback = true) :
    (addInteraction none disable_dm enf c2 st).error.isSome = true
  ∧ ∃ m2,
      lookupA (addInteraction none disable_dm enf c2 st).state.interactions s = some m2
      ∧ lookupA m2 c2.resolved_name = some c1 := by
  unfold addInteraction
  by_cases hdm : disable_dm = true
  · simp only [hdm, if_true, hcb, Bool.not_true, Bool.false_eq_true, if_false]
    exact addInteractionLoop_dup _ _ _ _ enf s c1 _ st m hm hname hscope
  · rw [Bool.not_eq_true] at hdm
    simp only [hdm, Bool.false_eq_true, if_false, hcb, Bool.not_true]
    exact addInteractionLoop_dup _ _ _ _ enf s c1 _ st m hm hname hscope

/-- C4, witness: re-registering `"ban"` under scope `9` raises and the
scope-`9` map still holds the first command. -/
theorem C4_duplicate_rejection_witness :
    (addInteraction none false false sampleCmd2 sampleIState).error.isSome = true
  ∧ ∃ m2,
      lookupA (addInteraction none false false sampleCmd2 sampleIState).state.interactions 9
        = some m2
      ∧ lookupA m2 sampleCmd2.resolved_name = some sampleCmd1 :=
  C4_duplicate_rejection false false sampleCmd1 sampleCmd2 sampleIState 9
    [("ban".data, sampleCmd1)] (by decide) (by decide) (by decide) (by decide)

/-- C5, counterexample: a prefixed command whose alias collides raises,
but the registry is not left as it was — the command was already stored
under its own name, so the failed call partially applies. -/
theorem C5_counterexample :
    (addPrefixedCommand samplePrefA samplePrefTable).error.isSome = true
  ∧ (addPrefixedCommand samplePrefA samplePrefTable).state ≠ samplePrefTable := by
  decide

/-- C5 (amended): a registration-time conflict raises immediately, but
the call may partially apply — insertions made before the conflict is
detected persist.  The registries are left exactly as before only when
the conflict is detected before the first insertion: for
`add_prefixed_command`, when the command's own name is already taken;
for `add_interaction`, when the duplicate sits in the first scope of the
command's scope list. -/
theorem C5_amended_registration_conflict :
    (∀ (c : PrefCommand) (m : List (List Char × PrefCommand)),
      memA m c.name = true →
      addPrefixedCommand c m = ⟨m, some ("Duplicate command!".data), false⟩)
  ∧ (∀ (ddm enf : Bool) (c : ICommand) (st : InteractionsState)
      (s : Nat) (rest : List Nat) (mi : List (List Char × ICommand)),
      c.scopes = s :: rest →
      c.hasCallback = true →
      lookupA st.interactions s = some mi →
      memA mi c.resolved_name = true →
      (addInteraction none ddm enf c st).state = st
      ∧ (addInteraction none ddm enf c st).error.isSome = true) := by
  constructor
  · intro c m h
    unfold addPrefixedCommand
    simp only [h, if_true]
  · intro ddm enf c st s rest mi hsc hcb hm hmem
    unfold addInteraction
    by_cases hdm : ddm = true
    · simp only [hdm, if_true, hcb, Bool.not_true, Bool.false_eq_true, if_false]
      rw [hsc]
      simp only [addInteractionLoop, hm, hmem, if_true]
      exact ⟨trivial, rfl⟩
    · rw [Bool.not_eq_true] at hdm
      simp only [hdm, Bool.false_eq_true, if_false, hcb, Bool.not_true]
      rw [hsc]
      simp only [addInteractionLoop, hm, hmem, if_true]
      exact ⟨trivial, rfl⟩

/-- C5 (amended), witness: a name conflict on a prefixed command leaves
the table untouched, and a first-scope duplicate leaves the interaction
registries untouched. -/
theorem C5_amended_registration_conflict_witness :
    addPrefixedCommand samplePrefB samplePrefTable =
      ⟨samplePrefTable, some ("Duplicate command!".data), false⟩
  ∧ (addInteraction none false false sampleCmd1 sampleIState).state = sampleIState :=
  ⟨C5_amended_registration_conflict.1 samplePrefB samplePrefTable (by decide),
   (C5_amended_registration_conflict.2 false false sampleCmd1 sampleIState 9 []
      [("ban".data, sampleCmd1)] (by decide) (by decide) (by decide) (by decide)).1⟩

/-- C8: an inbound interaction whose type tag is none of the handled
kinds (ping, application command, autocomplete, message component,
modal response) makes the router raise `NotImplementedError` — the
envelope is not silently dropped. -/
theorem C8_unknown_type_tag (st : RouterState) (oc : RunOutcomes)
    (d : RawInteraction)
    (h1 : d.ty ≠ InteractionTypesPING)
    (h2 : d.ty ≠ InteractionTypesAPPLICATION_COMMAND)
    (h3 : d.ty ≠ InteractionTypesAUTOCOMPLETE)
    (h4 : d.ty ≠ InteractionTypesMESSAGE_COMPONENT)
    (h5 : d.ty ≠ InteractionTypesMODAL_RESPONSE) :
    dispatchInteraction st oc d = .error (.notImplemented d.ty) := by
  simp [dispatchInteraction, h1, h2, h3, h4, h5]

/-- C8, witness: type tag `7` is unhandled and raises. -/
theorem C8_unknown_type_tag_witness :
    dispatchInteraction sampleRouterState sampleOutcomes
      ⟨7, 5, "ban".data, [], 0, none⟩ = .error (.notImplemented 7) :=
  C8_unknown_type_tag sampleRouterState sampleOutcomes
    ⟨7, 5, "ban".data, [], 0, none⟩
    (by decide) (by decide) (by decide) (by decide) (by decide)

/-- C9: a command-invocation or autocomplete envelope whose numeric id
has no entry in the cached id-to-scope map (or whose mapped scope has no
registered commands) is dropped with only a log entry: the router
returns normally having dispatched no event at all. -/
theorem C9_unknown_id_dropped (st : RouterState) (oc : RunOutcomes)
    (d : RawInteraction)
    (hty : d.ty = InteractionTypesPING
      ∨ d.ty = InteractionTypesAPPLICATION_COMMAND
      ∨ d.ty = InteractionTypesAUTOCOMPLETE)
    (hscope : lookupA st.interaction_scopes d.dataId = none
      ∨ ∃ s, lookupA st.interaction_scopes d.dataId = some s
          ∧ lookupA st.interactions s = none) :
    dispatchInteraction st oc d = .ok [] := by
  rcases hscope with hnone | ⟨s, hs, hnone⟩
  · rcases hty with h | h | h <;> simp [dispatchInteraction, h, hnone]
  · rcases hty with h | h | h <;> simp [dispatchInteraction, h, hs, hnone]

/-- C9, witness: a command invocation with uncached id `6` produces no
event. -/
theorem C9_unknown_id_dropped_witness :
    dispatchInteraction sampleRouterState sampleOutcomes
      ⟨2, 6, "ban".data, [], 0, none⟩ = .ok [] :=
  C9_unknown_id_dropped sampleRouterState sampleOutcomes
    ⟨2, 6, "ban".data, [], 0, none⟩
    (Or.inr (Or.inl (by decide))) (Or.inl (by decide))


/-- `str.strip()` never lengthens a string. -/
theorem stripPy_length_le (s : List Char) : (stripPy s).length ≤ s.length := by
  unfold stripPy
  calc ((s.dropWhile isPySpace).reverse.dropWhile isPySpace).reverse.length
      = ((s.dropWhile isPySpace).reverse.dropWhile isPySpace).length :=
        List.length_reverse _
    _ ≤ (s.dropWhile isPySpace).reverse.length :=
        (List.dropWhile_suffix _).length_le
    _ = (s.dropWhile isPySpace).length := List.length_reverse _
    _ ≤ s.length := (List.dropWhile_suffix _).length_le

/-- One iteration of the subcommand walk strictly shortens the remaining
text: consuming the first word (and stripping) loses at least one
character.  This is why the `while True` loop of
`_dispatch_prefixed_commands` terminates, and why the fuel
`content_parameters.length` given to `walkSub` suffices. -/
theorem getFirstWord_shrink (cp w : List Char) (h : getFirstWord cp = some w) :
    (stripPy (removePre cp w)).length < cp.length := by
  have hsplit : w = (cp.dropWhile isPySpace).takeWhile (fun c => !isPySpace c)
      ∧ w ≠ [] := by
    unfold getFirstWord at h
    by_cases he : ((cp.dropWhile isPySpace).takeWhile (fun c => !isPySpace c)).isEmpty = true
    · rw [if_pos he] at h
      exact absurd h (by simp)
    · rw [if_neg he] at h
      injection h with h
      refine ⟨h.symm, ?_⟩
      rw [← h]
      intro hnil
      rw [hnil] at he
      exact he rfl
  obtain ⟨hw, hne⟩ := hsplit
  cases cp with
  | nil => simp at hw; exact absurd hw hne
  | cons c cs =>
    by_cases hc : isPySpace c = true
    · rw [List.dropWhile_cons, if_pos hc] at hw
      obtain ⟨w0, wr, rfl⟩ : ∃ w0 wr, w = w0 :: wr := by
        cases w with
        | nil => exact absurd rfl hne
        | cons a b => exact ⟨a, b, rfl⟩
      have hmem : w0 ∈ List.takeWhile (fun c => !isPySpace c)
          (List.dropWhile isPySpace cs) := by
        rw [← hw]
        exact List.mem_cons_self _ _
      have hw0g := List.mem_takeWhile_imp hmem
      have hw0 : (!isPySpace w0) = true := hw0g
      have hnpre : ¬ ((w0 :: wr).isPrefixOf (c :: cs) = true) := by
        rw [ List.isPrefixOf_iff_prefix, List.cons_prefix_cons]
        rintro ⟨rfl, -⟩
        rw [hc] at hw0
        exact Bool.noConfusion hw0
      have hrp : removePre (c :: cs) (w0 :: wr) = c :: cs := by
        unfold removePre
        rw [if_neg hnpre]
      rw [hrp]
      have hstrip : stripPy (c :: cs) = stripPy cs := by
        unfold stripPy
        rw [List.dropWhile_cons, if_pos hc]
      rw [hstrip]
      exact Nat.lt_succ_of_le (stripPy_length_le cs)
    · rw [List.dropWhile_cons, if_neg hc] at hw
      have hpre : w <+: c :: cs := by
        rw [hw]
        exact List.takeWhile_prefix _
      have hrp : removePre (c :: cs) w = (c :: cs).drop w.length := by
        unfold removePre
        rw [if_pos (Iff.mpr List.isPrefixOf_iff_prefix hpre)]
      rw [hrp]
      have hlen : ((c :: cs).drop w.length).length < (c :: cs).length := by
        rw [List.length_drop]
        exact Nat.sub_lt (by simp) (List.length_pos.mpr hne)
      exact lt_of_le_of_lt (stripPy_length_le _) hlen

/-- The walk's fuel never runs out: with fuel above the remaining text's
length, `walkSub` always returns a result. -/
theorem walkSub_isSome : ∀ (fuel : Nat) (cmd : PCmd) (cp : List Char),
    cp.length < fuel → (walkSub fuel cmd cp).isSome = true := by
  intro fuel
  induction fuel with
  | zero => intro cmd cp h; exact absurd h (Nat.not_lt_zero _)
  | succ n ih =>
    intro cmd cp h
    cases hgf : getFirstWord cp with
    | none => simp [walkSub, hgf]
    | some w =>
      cases hlk : lookupA cmd.subcommands w with
      | none => simp [walkSub, hgf, hlk]
      | some nc =>
        by_cases hen : (!nc.enabled) = true
        · simp [walkSub, hgf, hlk, hen]
        · by_cases hchk : (!nc.subcommands.isEmpty && nc.hierarchical_checking
              && !nc.canRun) = true
          · simp [walkSub, hgf, hlk, hen, hchk]
          · have hlt : (stripPy (removePre cp w)).length < n :=
              lt_of_lt_of_le (getFirstWord_shrink cp w hgf) (Nat.lt_succ_iff.mp h)
            simp only [walkSub, hgf, hlk, hen, hchk, Bool.false_eq_true,
              if_false]
            exact ih nc _ hlt

/-- The first walk step always returns a result. -/
theorem walkTop_isSome (cmds : List (List Char × PCmd)) (cp : List Char) :
    (walkTop cmds cp).isSome = true := by
  cases hgf : getFirstWord cp with
  | none => simp [walkTop, hgf]
  | some w =>
    cases hlk : lookupA cmds w with
    | none => simp [walkTop, hgf, hlk]
    | some nc =>
      by_cases hen : (!nc.enabled) = true
      · simp [walkTop, hgf, hlk, hen]
      · by_cases hchk : (!nc.subcommands.isEmpty && nc.hierarchical_checking
            && !nc.canRun) = true
        · simp [walkTop, hgf, hlk, hen, hchk]
        · have hs := walkSub_isSome cp.length nc (stripPy (removePre cp w))
            (getFirstWord_shrink cp w hgf)
          cases hr : walkSub cp.length nc (stripPy (removePre cp w)) with
          | none => rw [hr] at hs; exact Bool.noConfusion hs
          | some r =>
            cases r with
            | error u => simp [walkTop, hgf, hlk, hen, hchk, hr]
            | ok r2 => simp [walkTop, hgf, hlk, hen, hchk, hr]

/-- The embedded resolver is total: the fuel-exhaustion outcome is
unreachable. -/
theorem dispatchPrefixedCore_isSome (cmds : List (List Char × PCmd))
    (mm : Option (List Char)) (pfx : List PrefixSpec) (content : List Char) :
    (dispatchPrefixedCore cmds mm pfx content).isSome = true := by
  unfold dispatchPrefixedCore
  cases hp : pickPrefixUsed mm content pfx with
  | none => rfl
  | some pu =>
    have hw := walkTop_isSome cmds (removePre content pu)
    cases hr : walkTop cmds (removePre content pu) with
    | none => rw [hr] at hw; exact Bool.noConfusion hw
    | some r =>
      cases r with
      | error u => simp [hr]
      | ok ro =>
        cases ro with
        | none => simp [hr]
        | some pr =>
          obtain ⟨cmd, cp⟩ := pr
          by_cases hen : (!cmd.enabled) = true
          · simp [hr, hen]
          · simp [hr, hen]

/-- Whenever the resolver reaches an executable enabled command, the
reported invoke target is the message content minus the matched prefix
minus the unconsumed trailing argument text, whitespace-stripped
(line 1865) — not a concatenation of the matched words. -/
theorem invokeTarget_reconstruction (cmds : List (List Char × PCmd))
    (mm : Option (List Char)) (pfx : List PrefixSpec) (content : List Char)
    (p : List Char) (uid : Nat) (tgt args : List Char)
    (h : dispatchPrefixedCore cmds mm pfx content
      = some (.invoke p uid tgt args)) :
    tgt = stripPy (removeSuf (removePre content p) args) := by
  unfold dispatchPrefixedCore at h
  split at h
  · simp at h
  · dsimp only at h
    split at h
    · simp at h
    · simp at h
    · simp at h
    · split at h
      · simp at h
      · simp only [Option.some.injEq, PrefixResolution.invoke.injEq] at h
        obtain ⟨rfl, rfl, rfl, rfl⟩ := h
        rfl


/-- C7: on a successful resolution the context's `invoke_target` equals
the full message content with the matched prefix removed from the front
and the unconsumed trailing argument text removed from the end, then
whitespace-stripped; in particular for prefixes `("!", "?")` and content
`"!ban @user spam"` with `"ban"` a registered top-level command with no
subcommands, the prefix `"!"` is selected, `invoke_target` is `"ban"`,
and the remaining argument text is `"@user spam"`. -/
theorem C7_prefix_resolution :
    (∀ (cmds : List (List Char × PCmd)) (mm : Option (List Char))
      (pfx : List PrefixSpec) (content p : List Char) (uid : Nat)
      (tgt args : List Char),
      dispatchPrefixedCore cmds mm pfx content = some (.invoke p uid tgt args) →
      tgt = stripPy (removeSuf (removePre content p) args))
  ∧ dispatchPrefixedCore banTable none [.lit ("!".data), .lit ("?".data)]
      ("!ban @user spam".data)
      = some (.invoke ("!".data) 77 ("ban".data) ("@user spam".data)) :=
  ⟨invokeTarget_reconstruction, by decide⟩

/-- C7, witness: the reconstruction equation instantiated at the
concrete scenario. -/
theorem C7_prefix_resolution_witness :
    ("ban".data : List Char) =
      stripPy (removeSuf (removePre ("!ban @user spam".data) ("!".data))
        ("@user spam".data)) :=
  C7_prefix_resolution.1 banTable none [.lit ("!".data), .lit ("?".data)]
    ("!ban @user spam".data) ("!".data) 77 ("ban".data) ("@user spam".data)
    C7_prefix_resolution.2

end DisSnek
